import Mathlib

/-!
Shallow embedding of `examples/bindgen/main.rs` from the repository.

The Rust source is:

```
fn main() {
    println!("The value is {}!", simple_bindgen::SIMPLE_VALUE);
}

#[cfg(test)]
mod test {
    #[test]
    fn do_the_test() {
        assert_eq!(42, simple_bindgen::SIMPLE_VALUE);
        #[cfg(target_os = "macos")]
        assert_ne!(-1, simple_bindgen::SIMPLE_IS_MACOS);
    }
}
```

The external crate `simple_bindgen` supplies two opaque integer constants,
`SIMPLE_VALUE` and `SIMPLE_IS_MACOS`; the embedding is parameterised over
their values and over the compile-time platform flag `target_os = "macos"`.
A run is a straight-line list of statements (a `println!` or an assertion)
executed against a state recording the bytes written to standard output, the
assertions that have been evaluated, and whether a panic has occurred.
-/

namespace Bindgen

/-- The compile-time configuration relevant to this file: whether
`target_os = "macos"` holds (the only `cfg` predicate the source uses). -/
structure Platform where
  targetOsMacos : Bool
deriving DecidableEq, Repr

/-- An assertion as it appears in the source: `assert_eq!(l, r)` or
`assert_ne!(l, r)` on two integer values. -/
inductive Check where
  | checkEq (l r : Int)
  | checkNe (l r : Int)
deriving DecidableEq, Repr

/-- Whether the asserted condition holds. -/
def checkHolds : Check → Bool
  | .checkEq l r => l == r
  | .checkNe l r => l != r

/-- The panic payload of a failed assertion, recording which check failed
and the two operands, as the Rust assertion macros report them. -/
inductive AssertFailure where
  | eqFailed (l r : Int)
  | neFailed (l r : Int)
deriving DecidableEq, Repr

/-- The failure reported when a given check does not hold. -/
def failureOf : Check → AssertFailure
  | .checkEq l r => .eqFailed l r
  | .checkNe l r => .neFailed l r

/-- A statement of the straight-line programs in the source: a `println!`
of a fully formatted line, or an assertion macro. -/
inductive Stmt where
  | println (s : String)
  | assertCheck (c : Check)
deriving DecidableEq, Repr

/-- Execution state: the bytes written to standard output so far, the
assertions evaluated so far (in order), and the panic, if one occurred. -/
structure ExecState where
  stdout : String
  checksRun : List Check
  panicked : Option AssertFailure
deriving DecidableEq, Repr

/-- The state at process start: nothing printed, nothing checked, no panic. -/
def ExecState.init : ExecState := ⟨"", [], none⟩

/-- One statement: `println!` appends the line and a newline to standard
output; an assertion macro evaluates its check and panics when it fails. -/
def execStmt (st : ExecState) : Stmt → ExecState
  | .println s => { st with stdout := st.stdout ++ s ++ "\n" }
  | .assertCheck c =>
      let st := { st with checksRun := st.checksRun ++ [c] }
      if checkHolds c then st else { st with panicked := some (failureOf c) }

/-- Run a straight-line program; a panic is a hard stop, so no statement
after a failed assertion executes. -/
def exec (st : ExecState) : List Stmt → ExecState
  | [] => st
  | s :: rest => if st.panicked.isSome then st else exec (execStmt st s) rest

/-- One small step of execution: `none` when the program is finished or
stopped by a panic. Used to state termination with an explicit fuel bound. -/
def step : List Stmt × ExecState → Option (List Stmt × ExecState)
  | ([], _) => none
  | (s :: rest, st) =>
      if st.panicked.isSome then none else some (rest, execStmt st s)

/-- Fuel-bounded driver for `step`: `none` means the fuel ran out before
the program stopped. -/
def runFuel : Nat → List Stmt × ExecState → Option ExecState
  | 0, _ => none
  | fuel + 1, cfg =>
      match step cfg with
      | none => some cfg.2
      | some cfg2 => runFuel fuel cfg2

/-- The body of `fn main`: a single `println!` formatting the external
constant `SIMPLE_VALUE` into the greeting. The format placeholder renders
the integer in decimal, as Rust `Display` does. -/
def mainProg (SIMPLE_VALUE : Int) : List Stmt :=
  [.println ("The value is " ++ toString SIMPLE_VALUE ++ "!")]

/-- The body of `do_the_test`: `assert_eq!(42, SIMPLE_VALUE)` followed,
only when compiled with `target_os = "macos"`, by
`assert_ne!(-1, SIMPLE_IS_MACOS)`. -/
def do_the_test_prog (p : Platform) (SIMPLE_VALUE SIMPLE_IS_MACOS : Int) :
    List Stmt :=
  [.assertCheck (.checkEq 42 SIMPLE_VALUE)] ++
    (if p.targetOsMacos then
      [.assertCheck (.checkNe (-1) SIMPLE_IS_MACOS)]
    else [])

/-- Running `fn main` from process start. The source never reads the
environment or the command line, so the final state ignores `env` and
`args`; they are parameters only so that this independence can be stated. -/
def mainRunIn (_env : List (String × String)) (_args : List String)
    (SIMPLE_VALUE : Int) : ExecState :=
  exec ExecState.init (mainProg SIMPLE_VALUE)

/-- Running `fn main` from process start. -/
def mainRun (SIMPLE_VALUE : Int) : ExecState :=
  exec ExecState.init (mainProg SIMPLE_VALUE)

/-- Running the test `do_the_test` from process start. -/
def do_the_test_run (p : Platform) (SIMPLE_VALUE SIMPLE_IS_MACOS : Int) :
    ExecState :=
  exec ExecState.init (do_the_test_prog p SIMPLE_VALUE SIMPLE_IS_MACOS)

/-- The test passes when it runs to completion without a panic; this is the
test runner's standard success convention. -/
def testPasses (p : Platform) (SIMPLE_VALUE SIMPLE_IS_MACOS : Int) : Prop :=
  (do_the_test_run p SIMPLE_VALUE SIMPLE_IS_MACOS).panicked = none

instance (p : Platform) (v m : Int) : Decidable (testPasses p v m) := by
  unfold testPasses; infer_instance

/-! ### Closed forms of the two runs -/

lemma exec_stop (st : ExecState) (h : st.panicked.isSome) (l : List Stmt) :
    exec st l = st := by
  cases l <;> simp [exec, h]

lemma mainRun_eq (v : Int) :
    mainRun v = ⟨"The value is " ++ toString v ++ "!" ++ "\n", [], none⟩ := by
  simp [mainRun, mainProg, exec, execStmt, ExecState.init]

lemma run_eqfail (p : Platform) (v m : Int) (hv : ¬ (42 : Int) = v) :
    do_the_test_run p v m =
      ⟨"", [.checkEq 42 v], some (.eqFailed 42 v)⟩ := by
  have hb : ((42 : Int) == v) = false := by simp [hv]
  cases hp : p.targetOsMacos <;>
    simp [do_the_test_run, do_the_test_prog, exec, execStmt, checkHolds,
      failureOf, ExecState.init, hp, hb]

lemma run_nonmacos_pass (v m : Int) (hv : (42 : Int) = v) :
    do_the_test_run ⟨false⟩ v m = ⟨"", [.checkEq 42 v], none⟩ := by
  have hb : ((42 : Int) == v) = true := by simp [hv]
  simp [do_the_test_run, do_the_test_prog, exec, execStmt, checkHolds,
    failureOf, ExecState.init, hb]

lemma run_macos_pass (v m : Int) (hv : (42 : Int) = v)
    (hm : ¬ (-1 : Int) = m) :
    do_the_test_run ⟨true⟩ v m =
      ⟨"", [.checkEq 42 v, .checkNe (-1) m], none⟩ := by
  have hb : ((42 : Int) == v) = true := by simp [hv]
  have hb2 : ((-1 : Int) != m) = true := by simp [hm]
  simp [do_the_test_run, do_the_test_prog, exec, execStmt, checkHolds,
    failureOf, ExecState.init, hb, hb2]

lemma run_macos_nefail (v m : Int) (hv : (42 : Int) = v)
    (hm : (-1 : Int) = m) :
    do_the_test_run ⟨true⟩ v m =
      ⟨"", [.checkEq 42 v, .checkNe (-1) m], some (.neFailed (-1) m)⟩ := by
  have hb : ((42 : Int) == v) = true := by simp [hv]
  have hb2 : ((-1 : Int) != m) = false := by simp [hm]
  simp [do_the_test_run, do_the_test_prog, exec, execStmt, checkHolds,
    failureOf, ExecState.init, hb, hb2]

lemma runFuel_exec (l : List Stmt) (st : ExecState) :
    runFuel (l.length + 1) (l, st) = some (exec st l) := by
  induction l generalizing st with
  | nil => simp [runFuel, step, exec]
  | cons s rest ih =>
      by_cases h : st.panicked.isSome
      · simp [runFuel, step, h, exec_stop st h]
      · simp [runFuel, step, h, exec]
        exact ih (execStmt st s)

/-! ### Claim theorems -/

/-- C1: the test `do_the_test` asserts `SIMPLE_VALUE == 42`, so on every
platform it passes only when `SIMPLE_VALUE = 42` holds. -/
theorem test_passes_only_if_simple_value_42 (p : Platform) (v m : Int)
    (h : testPasses p v m) : v = 42 := by
  by_contra hv
  have he := run_eqfail p v m (fun he => hv he.symm)
  simp [testPasses, he] at h

/-- Witness for C1 at the macOS-absent platform with both constants 42 and 0. -/
theorem test_passes_only_if_simple_value_42_witness : (42 : Int) = 42 :=
  test_passes_only_if_simple_value_42 ⟨false⟩ 42 0 (by decide)

/-- C2: when `SIMPLE_VALUE = 42`, running `main` writes exactly the single
line `The value is 42!` (and its terminating newline) to standard output,
evaluates no assertion and panics on nothing. -/
theorem main_prints_the_value_is_42 (v : Int) (h : v = 42) :
    (mainRun v).stdout = "The value is 42!" ++ "\n" ∧
    (mainRun v).checksRun = [] ∧ (mainRun v).panicked = none := by
  subst h
  exact ⟨rfl, rfl, rfl⟩

/-- Witness for C2 at `SIMPLE_VALUE = 42`. -/
theorem main_prints_the_value_is_42_witness :
    (mainRun 42).stdout = "The value is 42!" ++ "\n" ∧
    (mainRun 42).checksRun = [] ∧ (mainRun 42).panicked = none :=
  main_prints_the_value_is_42 42 rfl

/-- C3: on macOS the test additionally evaluates
`assert_ne!(-1, SIMPLE_IS_MACOS)` (so, given the first assertion passed, the
run succeeds exactly when `SIMPLE_IS_MACOS ≠ -1`), while on a non-macOS
platform the only check ever evaluated is the equality on `SIMPLE_VALUE`. -/
theorem macos_extra_check (v m : Int) :
    Check.checkNe (-1) m ∈ (do_the_test_run ⟨true⟩ 42 m).checksRun ∧
    (do_the_test_run ⟨false⟩ v m).checksRun = [Check.checkEq 42 v] ∧
    ((do_the_test_run ⟨true⟩ 42 m).panicked = none ↔ m ≠ -1) := by
  have h2 : (do_the_test_run ⟨false⟩ v m).checksRun = [Check.checkEq 42 v] := by
    by_cases hv : (42 : Int) = v
    · rw [run_nonmacos_pass v m hv]
    · rw [run_eqfail ⟨false⟩ v m hv]
  by_cases hm : (-1 : Int) = m
  · rw [run_macos_nefail 42 m rfl hm]
    exact ⟨by simp, h2, by simp [hm.symm]⟩
  · rw [run_macos_pass 42 m rfl hm]
    exact ⟨by simp, h2, by simpa using fun he => hm he.symm⟩

/-- Witness for C3: on macOS with `SIMPLE_IS_MACOS = 0` the extra check
is evaluated. -/
theorem macos_extra_check_witness :
    Check.checkNe (-1) 0 ∈ (do_the_test_run ⟨true⟩ 42 0).checksRun :=
  (macos_extra_check 5 0).1

/-- C4: the test run fails exactly when one of the asserted conditions does
not hold, and the recorded panic names the failing check and its operands;
there is no other failure mode. -/
theorem test_failure_modes (p : Platform) (v m : Int) :
    ((do_the_test_run p v m).panicked = none ↔
      (v = 42 ∧ (p.targetOsMacos = true → m ≠ -1))) ∧
    (∀ f, (do_the_test_run p v m).panicked = some f →
      (f = AssertFailure.eqFailed 42 v ∧
        checkHolds (Check.checkEq 42 v) = false) ∨
      (f = AssertFailure.neFailed (-1) m ∧
        checkHolds (Check.checkNe (-1) m) = false)) := by
  obtain ⟨b⟩ := p
  by_cases hv : (42 : Int) = v
  · cases b
    · rw [run_nonmacos_pass v m hv]
      refine ⟨by simp [hv.symm], ?_⟩
      intro f hf
      simp at hf
    · by_cases hm : (-1 : Int) = m
      · rw [run_macos_nefail v m hv hm]
        refine ⟨by simp [hv.symm, hm.symm], ?_⟩
        intro f hf
        simp at hf
        subst hf
        exact Or.inr ⟨rfl, by simp [checkHolds, hm]⟩
      · rw [run_macos_pass v m hv hm]
        refine ⟨by simpa [hv.symm] using fun he => hm he.symm, ?_⟩
        intro f hf
        simp at hf
  · rw [run_eqfail ⟨b⟩ v m hv]
    refine ⟨by simpa using fun h2 => (hv h2.symm).elim, ?_⟩
    intro f hf
    simp at hf
    subst hf
    exact Or.inl ⟨rfl, by simp [checkHolds]; exact fun he => hv he⟩

/-- Witness for C4: on macOS with both constants satisfying the asserted
conditions, the test passes. -/
theorem test_failure_modes_witness :
    (do_the_test_run ⟨true⟩ 42 5).panicked = none :=
  (test_failure_modes ⟨true⟩ 42 5).1.mpr ⟨rfl, fun _ => by decide⟩

/-- C5: for every integer value of `SIMPLE_VALUE`, the complete standard
output of `main` is the single line `The value is `, the decimal rendering
of the value, `!`, and the line terminator. -/
theorem main_output_format (v : Int) :
    (mainRun v).stdout = "The value is " ++ toString v ++ "!" ++ "\n" := by
  rw [mainRun_eq]

/-- C6: both entry points terminate: each run stops within fuel one more
than its straight-line statement count; `main` is a single print and the
test is at most two assertions, with no loop, recursion or suspension. -/
theorem entry_points_terminate (p : Platform) (v m : Int) :
    runFuel ((mainProg v).length + 1) (mainProg v, ExecState.init) =
      some (mainRun v) ∧
    runFuel ((do_the_test_prog p v m).length + 1)
        (do_the_test_prog p v m, ExecState.init) =
      some (do_the_test_run p v m) ∧
    (mainProg v).length = 1 ∧ (do_the_test_prog p v m).length ≤ 2 :=
  ⟨runFuel_exec _ _, runFuel_exec _ _, rfl, by
    obtain ⟨b⟩ := p
    cases b <;> simp [do_the_test_prog]⟩

/-- C7: running `main` changes nothing but standard output: it evaluates no
check, panics on nothing, and the final state is independent of the
environment variables and the command-line arguments. -/
theorem main_frame_condition (env : List (String × String))
    (args : List String) (v : Int) :
    (mainRunIn env args v).checksRun = ExecState.init.checksRun ∧
    (mainRunIn env args v).panicked = ExecState.init.panicked ∧
    ∀ env2 args2, mainRunIn env args v = mainRunIn env2 args2 v := by
  have h : mainRunIn env args v = mainRun v := rfl
  refine ⟨?_, ?_, fun _ _ => rfl⟩ <;> rw [h, mainRun_eq] <;> rfl

/-- C8: `main` is deterministic: two runs with the same `SIMPLE_VALUE`
produce identical final states, whatever the environment and arguments. -/
theorem main_deterministic (env1 env2 : List (String × String))
    (args1 args2 : List String) (v1 v2 : Int) (h : v1 = v2) :
    mainRunIn env1 args1 v1 = mainRunIn env2 args2 v2 := by
  subst h
  rfl

/-- Witness for C8: two concrete runs with different environments agree. -/
theorem main_deterministic_witness :
    mainRunIn [] [] 42 = mainRunIn [("HOME", "x")] ["flag"] 42 :=
  main_deterministic [] [("HOME", "x")] [] ["flag"] 42 42 rfl

/-- C9: the equality assertion on `SIMPLE_VALUE` is evaluated first: when
`SIMPLE_VALUE ≠ 42` the run stops at that assertion, the inequality check
is never evaluated, and the outcome never inspects `SIMPLE_IS_MACOS`. -/
theorem eq_assert_evaluated_first (p : Platform) (v m : Int) (h : v ≠ 42) :
    (do_the_test_run p v m).checksRun = [Check.checkEq 42 v] ∧
    (∀ m2, do_the_test_run p v m2 = do_the_test_run p v m) ∧
    (do_the_test_run p v m).panicked =
      some (AssertFailure.eqFailed 42 v) := by
  have hv : ¬ (42 : Int) = v := fun he => h he.symm
  refine ⟨?_, ?_, ?_⟩
  · rw [run_eqfail p v m hv]
  · intro m2
    rw [run_eqfail p v m hv, run_eqfail p v m2 hv]
  · rw [run_eqfail p v m hv]

/-- Witness for C9 on macOS with `SIMPLE_VALUE = 7`. -/
theorem eq_assert_evaluated_first_witness :
    (do_the_test_run ⟨true⟩ 7 0).checksRun = [Check.checkEq 42 7] :=
  (eq_assert_evaluated_first ⟨true⟩ 7 0 (by decide)).1

/-- C10: `main` is total and never fails: for every integer value of the
constant (not only 42) the run completes with no panic and evaluates no
assertion, whatever the environment and arguments. -/
theorem main_never_fails (env : List (String × String))
    (args : List String) (v : Int) :
    (mainRunIn env args v).panicked = none ∧
    (mainRunIn env args v).checksRun = [] := by
  have h : mainRunIn env args v = mainRun v := rfl
  rw [h, mainRun_eq]
  exact ⟨rfl, rfl⟩

end Bindgen
